import Mathlib

/-!
Shallow embedding of `cmd/web/main.go` from the `enjoy-new-relic` repository.

The program is a small web server with two routes (`GET /` and `GET /fetch`),
a New Relic instrumentation middleware (`withNewRelic`), and a log relay
(`contextLogger.log` / `contextLogger.send`) that ships one structured log
record per call to a fixed log-ingestion endpoint.

Modelling conventions:
* Observable behaviour is a trace of `Event`s (outbound HTTP calls, local log
  lines, the HTTP response written, transaction open/close, and markers for
  entering `contextLogger.log` / `contextLogger.send`).
* Outcomes of third-party library calls (`json.Marshal`, `http.NewRequest`,
  `http.Client.Do`, the outbound fetch) are supplied by oracle parameters
  (`SendEnv`, `FetchOutcome`), so every control-flow branch of the source is
  represented.
* Go `map[string]interface{}` becomes an association list with an
  overwriting `set`; lookups go through `LogBody.get`.
* `uint64(now.UnixNano()) / uint64(1000*1000)` is modelled on `Int` with the
  two's-complement reinterpretation made explicit (`% 2^64`), then `Nat`
  division.
-/

/-- Scalar JSON-serializable values stored in a log record
(the source only ever stores strings and a `uint64` timestamp). -/
inductive Value where
  | str : String → Value
  | nat : Nat → Value
  deriving DecidableEq

/-- Go's `type logBody map[string]interface{}`, as an association list
whose observable interface is `get`/`set`. -/
abbrev LogBody := List (String × Value)

/-- Map assignment `data[k] = v`: any existing binding for `k` is replaced. -/
def LogBody.set (b : LogBody) (k : String) (v : Value) : LogBody :=
  b.filter (fun p => !(p.1 == k)) ++ [(k, v)]

/-- Map lookup `data[k]`. -/
def LogBody.get (b : LogBody) (k : String) : Option Value :=
  (b.find? (fun p => p.1 == k)).map Prod.snd

/-- Go's `type detailedLog struct { Logs []logBody }`: the envelope object
with the single JSON key `"logs"`. -/
structure DetailedLog where
  logs : List LogBody
  deriving DecidableEq

/-- The value `json.Marshal` serializes in `contextLogger.send`:
`[]detailedLog{{Logs: datas}}`, a one-element array. -/
def marshalBatch (datas : List LogBody) : List DetailedLog :=
  [{ logs := datas }]

/-- A New Relic transaction as far as the relay observes it: the key-value
pairs that `logcontext.AddLinkingMetadata(data, txn.GetLinkingMetadata())`
would insert into a record. The vendor SDK supplies these; we quantify over
arbitrary pair lists. -/
structure Transaction where
  linkingMetadata : List (String × Value)
  deriving DecidableEq

/-- Observable events of one request, in program order. -/
inductive Event where
  | startTxn (name : String)
  | setWebRequest
  | setWebResponse
  | endTxn
  | relayCall (msg : String)
  | sendCall (datas : List LogBody)
  | logPost (url : String) (headers : List (String × String)) (body : List DetailedLog)
  | localLog (line : String)
  | fetchGet (url : String)
  | respond (status : Nat) (body : String)
  deriving DecidableEq

/-- Error results of `contextLogger.send`, one per `return fmt.Errorf` site. -/
inductive SendError where
  | serialization
  | requestBuild
  | transport
  deriving DecidableEq

/-- Rendering of the wrapped error used in `log.Printf("! error=%s", err)`.
The wrapped inner error text comes from the standard library; only the
constant prefix of each `fmt.Errorf` format string is modelled. -/
def sendErrorMessage : SendError → String
  | .serialization => "json.Marshal: ..."
  | .requestBuild => "NewRequest: ..."
  | .transport => "Do: ..."

/-- Oracle for the library calls made inside `contextLogger.send`:
whether `json.Marshal` succeeds, whether `http.NewRequestWithContext`
succeeds, and the result of `http.DefaultClient.Do` (`none` means a
transport error, `some st` means a response with status code `st`). -/
structure SendEnv where
  marshalOk : Bool
  reqOk : Bool
  doResult : Option Nat
  deriving DecidableEq

/-- Fixed ingestion endpoint of `contextLogger.send`. -/
def logAPIURL : String := "https://log-api.newrelic.com/log/v1"

/-- Headers set on the relay POST. -/
def sendHeaders (apiKey : String) : List (String × String) :=
  [("x-license-key", apiKey), ("content-type", "application/json")]

/-- Go's `type contextLogger struct { apiKey string }`. -/
structure contextLogger where
  apiKey : String

/-- `contextLogger.send`: marshal the one-element `detailedLog` batch, build
the POST, issue it, and on any received response log the status locally and
return nil. Result is the returned error (if any) paired with the events. -/
def contextLogger.send (l : contextLogger) (env : SendEnv) (datas : List LogBody) :
    Option SendError × List Event :=
  if env.marshalOk = false then
    (some .serialization, [.sendCall datas])
  else if env.reqOk = false then
    (some .requestBuild, [.sendCall datas])
  else
    match env.doResult with
    | none =>
        (some .transport,
          [.sendCall datas, .logPost logAPIURL (sendHeaders l.apiKey) (marshalBatch datas)])
    | some st =>
        (none,
          [.sendCall datas, .logPost logAPIURL (sendHeaders l.apiKey) (marshalBatch datas),
            .localLog ("post log status=" ++ toString st)])

/-- `logcontext.KeyTimestamp` from the vendor SDK. -/
def KeyTimestamp : String := "timestamp"

/-- `logcontext.KeyMessage` from the vendor SDK. -/
def KeyMessage : String := "message"

/-- `logcontext.AddLinkingMetadata`: copy each metadata pair into the record. -/
def addLinkingMetadata (b : LogBody) (md : List (String × Value)) : LogBody :=
  md.foldl (fun acc p => acc.set p.1 p.2) b

/-- Go's `uint64(now.UnixNano()) / uint64(1000*1000)`: the signed nanosecond
count reinterpreted as `uint64` (two's complement, i.e. reduction mod `2^64`),
then divided by one million. -/
def goUnixMillis (nowNs : Int) : Nat :=
  (nowNs % (2 : Int) ^ 64).toNat / 1000000

/-- The record built in `contextLogger.log` lines 110-114: an empty map,
the linking metadata copied in, then the timestamp and message fields
assigned (in that order, after the metadata). -/
def buildLogRecord (md : List (String × Value)) (nowNs : Int) (msg : String) : LogBody :=
  ((addLinkingMetadata [] md).set KeyTimestamp (.nat (goUnixMillis nowNs))).set
    KeyMessage (.str msg)

/-- `contextLogger.log`: look the transaction up in the context (`txn`); if
absent return at once; otherwise build the record, call `send` with the
one-record slice, and on a send error print it locally. The leading
`relayCall` event marks entry into the function. -/
def contextLogger.log (l : contextLogger) (env : SendEnv) (txn : Option Transaction)
    (nowNs : Int) (msg : String) : List Event :=
  Event.relayCall msg ::
    match txn with
    | none => []
    | some t =>
        let data := buildLogRecord t.linkingMetadata nowNs msg
        let out := l.send env [data]
        match out.1 with
        | none => out.2
        | some e => out.2 ++ [.localLog ("! error=" ++ sendErrorMessage e)]

/-- The `GET /` handler: `fmt.Fprintln(w, "OK")` with the implicit 200. -/
def handleRoot : List Event :=
  [.respond 200 "OK\n"]

/-- Oracle for the outbound fetch in the `GET /fetch` handler: either
`http.NewRequestWithContext` fails, or `httpClient.Do` fails, or a response
with some status code arrives. -/
inductive FetchOutcome where
  | buildErr (e : String)
  | doErr (e : String)
  | ok (status : Nat)
  deriving DecidableEq

/-- The fetch target URL. -/
def fetchURL : String := "https://aereal.org/"

/-- Body written by `json.NewEncoder(w).Encode(struct{ Status int }{...})`. -/
def statusJSON (st : Nat) : String :=
  "\x7b\"Status\":" ++ toString st ++ "\x7d\n"

/-- The `GET /fetch` handler closure from `run`: build the outbound request
(500 on failure), issue it (500 on failure), else relay one log line about
the fetched status and respond 200 with the JSON status body.
`http.Error` appends a newline to its message. -/
def handleFetch (cl : contextLogger) (env : SendEnv) (txn : Option Transaction)
    (nowNs : Int) (fetch : FetchOutcome) : List Event :=
  match fetch with
  | .buildErr e =>
      [.respond 500 ("cannot build request: " ++ e ++ "\n")]
  | .doErr e =>
      [.fetchGet fetchURL, .respond 500 ("failed to send request: " ++ e ++ "\n")]
  | .ok st =>
      .fetchGet fetchURL ::
        cl.log env txn nowNs ("done fetch: status=" ++ toString st)
        ++ [.respond 200 (statusJSON st)]

/-- Outcome of a wrapped handler: it either returns normally or panics.
The middleware's `defer txn.End()` runs in both cases. -/
inductive HandlerOutcome where
  | normal
  | panicked (msg : String)
  deriving DecidableEq

/-- `withNewRelic`: start a transaction named `"<METHOD> <PATH>"`, defer its
close, attach it to the request (`RequestWithTransactionContext`, modelled as
passing `some txn` to the handler), record request and response on it, run
the handler, then — on every exit path, because of `defer` — end the
transaction. A panicking handler still gets its `endTxn` appended and its
outcome propagated. -/
def withNewRelic (next : Option Transaction → HandlerOutcome × List Event)
    (method path : String) (txn : Transaction) : HandlerOutcome × List Event :=
  let name := method ++ " " ++ path
  let result := next (some txn)
  (result.1,
    .startTxn name :: .setWebRequest :: .setWebResponse :: result.2 ++ [.endTxn])

/-- Name of the required environment variable checked at the top of `run`. -/
def licenseEnvVar : String := "NEWRELIC_LICENSE_KEY"

/-- Outcome of `run` up to the point a listener could exist: either an error
is returned before any socket is bound, or `http.ListenAndServe(":8000", mux)`
is reached. -/
inductive RunOutcome where
  | failed (msg : String)
  | listening (port : Nat)
  deriving DecidableEq

/-- Startup path of `run`: `os.Getenv` (empty string when unset), the
license check, `newrelic.NewApplication` (its success supplied by the
`appOk` oracle), then the listener. -/
def run (getenv : String → String) (appOk : Bool) : RunOutcome :=
  let nrLicense := getenv licenseEnvVar
  if nrLicense = "" then .failed "NEWRELIC_LICENSE_KEY required"
  else if appOk = false then .failed "cannot build new relic app"
  else .listening 8000

/-- `main`: `log.Fatal(err)` exits with status 1 when `run` returns an
error; otherwise (server closed gracefully) the process exits 0. -/
def mainExitCode (getenv : String → String) (appOk : Bool) : Nat :=
  match run getenv appOk with
  | .failed _ => 1
  | .listening _ => 0

/-- Event classifiers used to state trace properties. -/
def isLogPost : Event → Bool
  | .logPost _ _ _ => true
  | _ => false

def isRelayCall : Event → Bool
  | .relayCall _ => true
  | _ => false

def isRespond : Event → Bool
  | .respond _ _ => true
  | _ => false

def isSendCall : Event → Bool
  | .sendCall _ => true
  | _ => false

/-! ### Association-list map lemmas -/

theorem LogBody.find?_filter_self (b : LogBody) (k : String) :
    (b.filter (fun p => !(p.1 == k))).find? (fun p => p.1 == k) = none := by
  induction b with
  | nil => rfl
  | cons p rest ih =>
      by_cases h : p.1 = k
      · simp [List.filter_cons, h, ih]
      · simp [List.filter_cons, List.find?_cons, h, ih]

theorem LogBody.find?_filter_other (b : LogBody) (k k' : String) (h : k' ≠ k) :
    (b.filter (fun p => !(p.1 == k))).find? (fun p => p.1 == k')
      = b.find? (fun p => p.1 == k') := by
  induction b with
  | nil => rfl
  | cons p rest ih =>
      by_cases hk : p.1 = k
      · have hne : ¬ p.1 = k' := fun hc => h (hc ▸ hk)
        simpa [List.filter_cons, List.find?_cons, hk, hne, Ne.symm h] using ih
      · by_cases hk' : p.1 = k'
        · simp [List.filter_cons, List.find?_cons, hk, hk', h]
        · simpa [List.filter_cons, List.find?_cons, hk, hk'] using ih

theorem LogBody.get_set_self (b : LogBody) (k : String) (v : Value) :
    (b.set k v).get k = some v := by
  unfold LogBody.set LogBody.get
  rw [List.find?_append, LogBody.find?_filter_self]
  simp [List.find?_cons]

theorem LogBody.get_set_ne (b : LogBody) (k k' : String) (v : Value) (h : k' ≠ k) :
    (b.set k v).get k' = b.get k' := by
  unfold LogBody.set LogBody.get
  rw [List.find?_append, LogBody.find?_filter_other _ _ _ h]
  cases hb : b.find? (fun p => p.1 == k') with
  | none => simp [List.find?_cons, Ne.symm h]
  | some q => simp

/-- The timestamp and message fields of the built record, for any linking
metadata: both are written after the metadata copy, and the message write
comes last. -/
theorem buildLogRecord_get (md : List (String × Value)) (nowNs : Int) (msg : String) :
    (buildLogRecord md nowNs msg).get KeyTimestamp
        = some (.nat (goUnixMillis nowNs))
      ∧ (buildLogRecord md nowNs msg).get KeyMessage = some (.str msg) := by
  constructor
  · rw [buildLogRecord,
      LogBody.get_set_ne _ _ _ _ (by simp [KeyTimestamp, KeyMessage])]
    exact LogBody.get_set_self _ _ _
  · exact LogBody.get_set_self _ _ _

/-! ### Claim theorems -/

/-- Trace of `contextLogger.send` keeps exactly one `logPost` once marshal
and request construction succeed, whatever `Do` returns. -/
theorem contextLogger.send_filter_logPost (l : contextLogger) (env : SendEnv)
    (datas : List LogBody) (hm : env.marshalOk = true) (hr : env.reqOk = true) :
    ((l.send env datas).2).filter isLogPost
      = [Event.logPost logAPIURL (sendHeaders l.apiKey) (marshalBatch datas)] := by
  cases hd : env.doResult <;>
    simp [contextLogger.send, hm, hr, hd, isLogPost]

/-- Trace of `contextLogger.log` always keeps exactly one entry marker and
never writes a response. -/
theorem contextLogger.log_filter (l : contextLogger) (env : SendEnv)
    (txn : Option Transaction) (ns : Int) (msg : String) :
    (l.log env txn ns msg).filter isRelayCall = [Event.relayCall msg]
      ∧ (l.log env txn ns msg).filter isRespond = [] := by
  cases txn with
  | none => simp [contextLogger.log, isRelayCall, isRespond]
  | some t =>
      cases hm : env.marshalOk <;> cases hr : env.reqOk <;> cases hd : env.doResult <;>
        simp [contextLogger.log, contextLogger.send, hm, hr, hd, isRelayCall, isRespond]

/-- The one-record slice handed to `send` by `contextLogger.log` is always
`[buildLogRecord …]`, on every branch of `send`. -/
theorem contextLogger.log_sendCall_mem (l : contextLogger) (env : SendEnv)
    (t : Transaction) (ns : Int) (msg : String) :
    Event.sendCall [buildLogRecord t.linkingMetadata ns msg]
      ∈ l.log env (some t) ns msg := by
  cases hm : env.marshalOk <;> cases hr : env.reqOk <;> cases hd : env.doResult <;>
    simp [contextLogger.log, contextLogger.send, hm, hr, hd]

/-- C9: every request to `GET /` gets status exactly 200 with body exactly
`"OK\n"`, and the handler performs no other observable action — no relay
call and no outbound request. -/
theorem root_handler_ok :
    handleRoot = [Event.respond 200 "OK\n"] := rfl

/-- C1: `contextLogger.log` with no transaction in the context returns
immediately: its whole trace is the entry marker, so no record is built, no
`send` call happens, and no HTTP POST is issued, for every environment. -/
theorem log_no_txn_no_network (l : contextLogger) (env : SendEnv) (nowNs : Int)
    (msg : String) :
    l.log env none nowNs msg = [Event.relayCall msg]
      ∧ (l.log env none nowNs msg).filter isSendCall = []
      ∧ (l.log env none nowNs msg).filter isLogPost = [] := by
  refine ⟨rfl, ?_, ?_⟩ <;> simp [contextLogger.log, isSendCall, isLogPost]

/-- C2: `contextLogger.log` with an active transaction, once serialization
and request construction succeed (they always do for these constant inputs),
issues exactly one POST; its body is the one-element array whose single
envelope carries a one-record `logs` array, and that record holds the
millisecond timestamp and the given message. -/
theorem log_with_txn_one_post (l : contextLogger) (env : SendEnv) (t : Transaction)
    (ns : Int) (msg : String) (hm : env.marshalOk = true) (hr : env.reqOk = true) :
    (l.log env (some t) ns msg).filter isLogPost
        = [Event.logPost logAPIURL (sendHeaders l.apiKey)
            (marshalBatch [buildLogRecord t.linkingMetadata ns msg])]
      ∧ marshalBatch [buildLogRecord t.linkingMetadata ns msg]
          = [{ logs := [buildLogRecord t.linkingMetadata ns msg] }]
      ∧ (buildLogRecord t.linkingMetadata ns msg).get KeyTimestamp
          = some (.nat (goUnixMillis ns))
      ∧ (buildLogRecord t.linkingMetadata ns msg).get KeyMessage
          = some (.str msg) := by
  refine ⟨?_, rfl, (buildLogRecord_get _ _ _).1, (buildLogRecord_get _ _ _).2⟩
  cases hd : env.doResult <;>
    simp [contextLogger.log, contextLogger.send, hm, hr, hd, isLogPost]

/-- Witness for C2 at a concrete logger, environment, transaction, time and
message. -/
theorem log_with_txn_one_post_witness :
    ((contextLogger.mk "k").log ⟨true, true, some 202⟩
          (some ⟨[("trace.id", Value.str "abc")]⟩) 1500000000 "hello").filter isLogPost
        = [Event.logPost logAPIURL (sendHeaders "k")
            (marshalBatch [buildLogRecord [("trace.id", Value.str "abc")] 1500000000 "hello"])]
      ∧ marshalBatch [buildLogRecord [("trace.id", Value.str "abc")] 1500000000 "hello"]
          = [{ logs := [buildLogRecord [("trace.id", Value.str "abc")] 1500000000 "hello"] }]
      ∧ (buildLogRecord [("trace.id", Value.str "abc")] 1500000000 "hello").get KeyTimestamp
          = some (.nat (goUnixMillis 1500000000))
      ∧ (buildLogRecord [("trace.id", Value.str "abc")] 1500000000 "hello").get KeyMessage
          = some (.str "hello") :=
  log_with_txn_one_post ⟨"k"⟩ ⟨true, true, some 202⟩ ⟨[("trace.id", Value.str "abc")]⟩
    1500000000 "hello" rfl rfl

/-- C3: a `/fetch` request whose outbound fetch returns any status `st`
invokes the relay exactly once, with the message summarizing `st`, and the
last event is the single 200 response carrying the JSON status body, so the
relay call precedes the response. -/
theorem fetch_success_200 (cl : contextLogger) (env : SendEnv)
    (txn : Option Transaction) (ns : Int) (st : Nat) :
    (handleFetch cl env txn ns (.ok st)).filter isRelayCall
        = [Event.relayCall ("done fetch: status=" ++ toString st)]
      ∧ (handleFetch cl env txn ns (.ok st)).filter isRespond
          = [Event.respond 200 (statusJSON st)]
      ∧ (handleFetch cl env txn ns (.ok st)).getLast?
          = some (Event.respond 200 (statusJSON st)) := by
  obtain ⟨h1, h2⟩ := contextLogger.log_filter cl env txn ns
    ("done fetch: status=" ++ toString st)
  refine ⟨?_, ?_, ?_⟩
  · simp [handleFetch, List.filter_append, h1, isRelayCall]
  · simp [handleFetch, List.filter_append, h2, isRespond]
  · show ((Event.fetchGet fetchURL ::
        cl.log env txn ns ("done fetch: status=" ++ toString st))
          ++ [Event.respond 200 (statusJSON st)]).getLast? = _
    exact List.getLast?_concat _

/-- C4: a `/fetch` request whose outbound request construction or transport
fails responds 500 with the diagnostic body and nothing else: in particular
the relay is never called and no log-shipping POST happens. -/
theorem fetch_failure_500_no_relay (cl : contextLogger) (env : SendEnv)
    (txn : Option Transaction) (ns : Int) (e : String) :
    handleFetch cl env txn ns (.buildErr e)
        = [Event.respond 500 ("cannot build request: " ++ e ++ "\n")]
      ∧ handleFetch cl env txn ns (.doErr e)
          = [Event.fetchGet fetchURL,
              Event.respond 500 ("failed to send request: " ++ e ++ "\n")]
      ∧ (handleFetch cl env txn ns (.buildErr e)).filter isRelayCall = []
      ∧ (handleFetch cl env txn ns (.buildErr e)).filter isLogPost = []
      ∧ (handleFetch cl env txn ns (.doErr e)).filter isRelayCall = []
      ∧ (handleFetch cl env txn ns (.doErr e)).filter isLogPost = [] := by
  refine ⟨rfl, rfl, ?_, ?_, ?_, ?_⟩ <;>
    simp [handleFetch, isRelayCall, isLogPost]

/-- C5: `contextLogger.send` returns nil and logs the status locally on any
received response, non-2xx included; an error comes back only from failed
serialization, failed request construction, or a failed network call. -/
theorem send_response_no_error (l : contextLogger) (env : SendEnv)
    (datas : List LogBody) :
    (∀ st : Nat, env.marshalOk = true → env.reqOk = true → env.doResult = some st →
        (l.send env datas).1 = none
          ∧ Event.localLog ("post log status=" ++ toString st) ∈ (l.send env datas).2)
      ∧ ∀ e : SendError, (l.send env datas).1 = some e →
          (e = SendError.serialization ∧ env.marshalOk = false)
            ∨ (e = SendError.requestBuild ∧ env.reqOk = false)
            ∨ (e = SendError.transport ∧ env.doResult = none) := by
  constructor
  · intro st hm hr hd
    simp [contextLogger.send, hm, hr, hd]
  · intro e he
    cases hm : env.marshalOk
    · simp [contextLogger.send, hm] at he
      exact Or.inl ⟨he.symm, rfl⟩
    · cases hr : env.reqOk
      · simp [contextLogger.send, hm, hr] at he
        exact Or.inr (Or.inl ⟨he.symm, rfl⟩)
      · cases hd : env.doResult
        · simp [contextLogger.send, hm, hr, hd] at he
          exact Or.inr (Or.inr ⟨he.symm, rfl⟩)
        · simp [contextLogger.send, hm, hr, hd] at he

/-- Witness for C5 at a concrete non-2xx response (status 500). -/
theorem send_response_no_error_witness :
    ((contextLogger.mk "k").send ⟨true, true, some 500⟩ []).1 = none
      ∧ Event.localLog ("post log status=" ++ toString 500)
          ∈ ((contextLogger.mk "k").send ⟨true, true, some 500⟩ []).2 :=
  (send_response_no_error ⟨"k"⟩ ⟨true, true, some 500⟩ []).1 500 rfl rfl rfl

/-- C6: with an active transaction, the record `contextLogger.log` hands to
`send` carries timestamp `UnixNano / 1_000_000` (floor division of the
nonnegative in-range nanosecond count) and the given message. -/
theorem log_timestamp_millis (l : contextLogger) (env : SendEnv) (t : Transaction)
    (ns : Int) (msg : String) (h0 : 0 ≤ ns) (h1 : ns < 2 ^ 63) :
    (buildLogRecord t.linkingMetadata ns msg).get KeyTimestamp
        = some (Value.nat (ns.toNat / 1000000))
      ∧ (buildLogRecord t.linkingMetadata ns msg).get KeyMessage
          = some (Value.str msg)
      ∧ Event.sendCall [buildLogRecord t.linkingMetadata ns msg]
          ∈ l.log env (some t) ns msg := by
  refine ⟨?_, (buildLogRecord_get _ _ _).2, contextLogger.log_sendCall_mem _ _ _ _ _⟩
  rw [(buildLogRecord_get t.linkingMetadata ns msg).1]
  have hlt : ns < (2 : Int) ^ 64 := lt_trans h1 (by norm_num)
  have hmod : ns % (2 : Int) ^ 64 = ns := Int.emod_eq_of_lt h0 hlt
  rw [goUnixMillis, hmod]

/-- Witness for C6 at a concrete epoch time. -/
theorem log_timestamp_millis_witness :
    (buildLogRecord ([] : List (String × Value)) 1700000000123456789 "m").get KeyTimestamp
        = some (Value.nat ((1700000000123456789 : Int).toNat / 1000000))
      ∧ (buildLogRecord ([] : List (String × Value)) 1700000000123456789 "m").get KeyMessage
          = some (Value.str "m")
      ∧ Event.sendCall [buildLogRecord ([] : List (String × Value)) 1700000000123456789 "m"]
          ∈ (contextLogger.mk "k").log ⟨true, true, some 202⟩ (some ⟨[]⟩)
              1700000000123456789 "m" :=
  log_timestamp_millis ⟨"k"⟩ ⟨true, true, some 202⟩ ⟨[]⟩ 1700000000123456789 "m"
    (by decide) (by decide)

/-- C10: the timestamp and message assignments happen after the linking
metadata is copied, so for every metadata list — with colliding `timestamp`
or `message` keys included — the emitted record maps `message` to the given
string and `timestamp` to the computed millisecond value. -/
theorem log_fields_overwrite_metadata (md : List (String × Value)) (ns : Int)
    (msg : String) :
    (buildLogRecord md ns msg).get KeyMessage = some (Value.str msg)
      ∧ (buildLogRecord md ns msg).get KeyTimestamp
          = some (Value.nat (goUnixMillis ns)) :=
  ⟨(buildLogRecord_get md ns msg).2, (buildLogRecord_get md ns msg).1⟩

/-- C7: the middleware's trace opens with the transaction named
`"<METHOD> <PATH>"`, hands `some txn` to the wrapped handler, and — because
`txn.End()` is deferred — closes the transaction as the final event for
every handler and every outcome, panics included, propagating the outcome. -/
theorem middleware_txn_scoped (next : Option Transaction → HandlerOutcome × List Event)
    (method path : String) (txn : Transaction) :
    (withNewRelic next method path txn).2
        = Event.startTxn (method ++ " " ++ path) :: Event.setWebRequest ::
            Event.setWebResponse :: (next (some txn)).2 ++ [Event.endTxn]
      ∧ (withNewRelic next method path txn).2.head?
          = some (Event.startTxn (method ++ " " ++ path))
      ∧ (withNewRelic next method path txn).2.getLast? = some Event.endTxn
      ∧ (withNewRelic next method path txn).1 = (next (some txn)).1 := by
  refine ⟨rfl, rfl, ?_, rfl⟩
  show ((Event.startTxn (method ++ " " ++ path) :: Event.setWebRequest ::
      Event.setWebResponse :: (next (some txn)).2) ++ [Event.endTxn]).getLast? = _
  exact List.getLast?_concat _

/-- C8: with the license environment variable unset (empty), `run` returns
the descriptive error before any listener exists, and the process exits
non-zero via `log.Fatal`. -/
theorem missing_license_fails_fast (getenv : String → String) (appOk : Bool)
    (h : getenv licenseEnvVar = "") :
    run getenv appOk = RunOutcome.failed "NEWRELIC_LICENSE_KEY required"
      ∧ (∀ p, run getenv appOk ≠ RunOutcome.listening p)
      ∧ mainExitCode getenv appOk = 1
      ∧ mainExitCode getenv appOk ≠ 0 := by
  have h1 : run getenv appOk = RunOutcome.failed "NEWRELIC_LICENSE_KEY required" := by
    simp [run, h]
  refine ⟨h1, ?_, ?_, ?_⟩ <;> simp [mainExitCode, h1]

/-- Witness for C8 with every environment variable unset. -/
theorem missing_license_fails_fast_witness :
    run (fun _ => "") true = RunOutcome.failed "NEWRELIC_LICENSE_KEY required"
      ∧ mainExitCode (fun _ => "") true = 1 :=
  ⟨(missing_license_fails_fast (fun _ => "") true rfl).1,
    (missing_license_fails_fast (fun _ => "") true rfl).2.2.1⟩
